import Mathlib

/-!
A formal model of the arxiv-public-datasets bulk reference-extraction
pipeline (`bin/bulkrefs.py` and `bin/pdfdownload.py`), together with
theorems about its time-range iteration, manifest filtering, per-archive
orchestration, and output-file naming.

Python integers are modelled as `Int`; `divmod` is floor division, so it
is modelled with `Int.fdiv` / `Int.fmod`.  Python strings are modelled as
`String` (or `List Char` where character-level reasoning is needed).
-/

namespace ArxivBulkRefs

/-- Python `range(a, b)` over integers: the list `[a, a+1, ..., b-1]`,
empty when `b ≤ a`. -/
def intRange (a b : Int) : List Int :=
  (List.range (b - a).toNat).map (fun i : Nat => a + (i : Int))

/-- `year_month_iter` from `bin/bulkrefs.py` (lines 147-152):
encode the endpoints as month indices `12*year + month - 1`, iterate the
half-open integer range, and decode each index with `divmod(ym, 12)`,
yielding `(y, m + 1)`. -/
def year_month_iter (from_year from_month until_year until_month : Int) :
    List (Int × Int) :=
  (intRange (12 * from_year + from_month - 1)
            (12 * until_year + until_month - 1)).map
    (fun ym => (ym.fdiv 12, ym.fmod 12 + 1))

/-- A manifest entry as consumed by the pipeline: the `filename` and
`timestamp` fields of one item of the S3 manifest. -/
structure ManifestItem where
  filename : String
  timestamp : String
deriving DecidableEq

/-- Python `"{:02d}".format(n)`: decimal rendering, zero-padded to
width 2. -/
def format02d (n : Int) : String :=
  let s := toString n
  if s.length < 2 then "0" ++ s else s

/-- The month prefix `"{}-{:02d}".format(year, month)` computed at
`bin/bulkrefs.py` line 79. -/
def ymPrefixStr (year month : Int) : String :=
  toString year ++ "-" ++ format02d month

/-- The selection of tar files made by `extract_refs_for_month`
(`bin/bulkrefs.py` lines 86-92): keep the manifest items whose timestamp
starts with the month prefix and whose filename is not in the
already-downloaded set, and take their filenames. -/
def tar_files_to_download (year month : Int) (manifest : List ManifestItem)
    (already_downloaded : List String) : List String :=
  (manifest.filter (fun item =>
      (ymPrefixStr year month).isPrefixOf item.timestamp
        && !(already_downloaded.contains item.filename))).map
    (fun item => item.filename)

/-- Python truthiness of an optional integer CLI argument: `None` and `0`
are falsy. -/
def intTruthy : Option Int → Bool
  | none => false
  | some v => v != 0

/-- The manifest filtering done by `cli` in `bin/pdfdownload.py`
(lines 29-44): when `year` is truthy, keep items whose timestamp starts
with `str(year) + "-"`; when `month` is also truthy, further keep items
whose second `"-"`-separated timestamp field equals the zero-padded
month.  (Python raises `IndexError` when a surviving timestamp has no
second field; that is modelled by a default field `""`, which no
zero-padded month equals.) -/
def pdfdownload_filtered_manifest (year month : Option Int)
    (manifest : List ManifestItem) : List ManifestItem :=
  if intTruthy year then
    let m1 := manifest.filter (fun item =>
      (toString (year.getD 0) ++ "-").isPrefixOf item.timestamp)
    if intTruthy month then
      m1.filter (fun item =>
        (item.timestamp.splitOn "-").getD 1 "" == format02d (month.getD 0))
    else m1
  else manifest

/-! ### Helper lemmas -/

theorem contains_eq_true_iff (l : List String) (a : String) :
    l.contains a = true ↔ a ∈ l := by
  simp [List.contains]

theorem intRange_length (a b : Int) : (intRange a b).length = (b - a).toNat := by
  simp [intRange]

theorem intRange_getElem (a b : Int) (k : Nat) (hk : k < (intRange a b).length) :
    (intRange a b)[k] = a + (k : Int) := by
  simp [intRange]

theorem intRange_pairwise (a b : Int) : (intRange a b).Pairwise (· < ·) := by
  unfold intRange
  rw [List.pairwise_map]
  refine (List.pairwise_lt_range _).imp ?_
  intro i j hij
  omega

theorem perm_contains {l₁ l₂ : List String} (h : l₁.Perm l₂) (a : String) :
    l₁.contains a = l₂.contains a := by
  cases hc : l₂.contains a with
  | true =>
    rw [contains_eq_true_iff] at hc ⊢
    exact h.mem_iff.mpr hc
  | false =>
    rw [Bool.eq_false_iff] at hc ⊢
    intro hcontra
    rw [contains_eq_true_iff] at hcontra
    exact hc (by rw [contains_eq_true_iff]; exact h.mem_iff.mp hcontra)

/-! ### Claims about manifest filtering -/

/-- C2: the per-month stage selects exactly the manifest entries whose
timestamp starts with the exact prefix `"{year}-{month:02d}"` and whose
filename is not in the already-downloaded set; the selection is
unchanged under any permutation of the already-downloaded set; and the
prefix is zero-padded (e.g. `"2020-03"` for March 2020). -/
theorem tar_files_selection_spec (year month : Int) (manifest : List ManifestItem)
    (already already' : List String) (hperm : already.Perm already') :
    tar_files_to_download year month manifest already
      = tar_files_to_download year month manifest already'
    ∧ (∀ fn, fn ∈ tar_files_to_download year month manifest already ↔
        ∃ item, item ∈ manifest ∧ item.filename = fn
          ∧ (ymPrefixStr year month).isPrefixOf item.timestamp = true
          ∧ fn ∉ already)
    ∧ ymPrefixStr 2020 3 = "2020-03" := by
  refine ⟨?_, ?_, by decide⟩
  · unfold tar_files_to_download
    congr 1
    apply List.filter_congr
    intro item _
    rw [perm_contains hperm]
  · intro fn
    unfold tar_files_to_download
    simp only [List.mem_map, List.mem_filter, Bool.and_eq_true, Bool.not_eq_eq_eq_not,
      Bool.not_true, contains_eq_true_iff]
    constructor
    · rintro ⟨item, ⟨hmem, hyp, hnot⟩, rfl⟩
      refine ⟨item, hmem, rfl, hyp, ?_⟩
      intro hmem'
      rw [Bool.eq_false_iff] at hnot
      exact hnot ((contains_eq_true_iff _ _).mpr hmem')
    · rintro ⟨item, hmem, rfl, hyp, hnot⟩
      refine ⟨item, ⟨hmem, hyp, ?_⟩, rfl⟩
      rw [Bool.eq_false_iff]
      intro hc
      exact hnot ((contains_eq_true_iff _ _).mp hc)

/-- Witness for C2 on a concrete manifest and two orderings of the
already-downloaded set. -/
theorem tar_files_selection_spec_witness :
    (["f3", "zz"] : List String).Perm ["zz", "f3"]
    ∧ (tar_files_to_download 2020 3
          [⟨"f1", "2020-03-01"⟩, ⟨"f2", "2020-04-01"⟩, ⟨"f3", "2020-03-15"⟩]
          ["f3", "zz"]
        = tar_files_to_download 2020 3
          [⟨"f1", "2020-03-01"⟩, ⟨"f2", "2020-04-01"⟩, ⟨"f3", "2020-03-15"⟩]
          ["zz", "f3"]
      ∧ (∀ fn, fn ∈ tar_files_to_download 2020 3
            [⟨"f1", "2020-03-01"⟩, ⟨"f2", "2020-04-01"⟩, ⟨"f3", "2020-03-15"⟩]
            ["f3", "zz"] ↔
          ∃ item, item ∈ ([⟨"f1", "2020-03-01"⟩, ⟨"f2", "2020-04-01"⟩,
              ⟨"f3", "2020-03-15"⟩] : List ManifestItem) ∧ item.filename = fn
            ∧ (ymPrefixStr 2020 3).isPrefixOf item.timestamp = true
            ∧ fn ∉ (["f3", "zz"] : List String))
      ∧ ymPrefixStr 2020 3 = "2020-03") :=
  ⟨List.Perm.swap "zz" "f3" [],
   tar_files_selection_spec 2020 3
     [⟨"f1", "2020-03-01"⟩, ⟨"f2", "2020-04-01"⟩, ⟨"f3", "2020-03-15"⟩]
     ["f3", "zz"] ["zz", "f3"] (List.Perm.swap "zz" "f3" [])⟩

/-- C10: in the direct bulk-download entry point, when the year option
is absent or zero (falsy), the manifest passes through unfiltered and
the month option has no effect at all. -/
theorem pdfdownload_year_falsy (year month : Option Int)
    (manifest : List ManifestItem) (h : intTruthy year = false) :
    pdfdownload_filtered_manifest year month manifest = manifest
    ∧ ∀ month2, pdfdownload_filtered_manifest year month manifest
        = pdfdownload_filtered_manifest year month2 manifest := by
  have hbase : ∀ m, pdfdownload_filtered_manifest year m manifest = manifest := by
    intro m
    unfold pdfdownload_filtered_manifest
    rw [h]
    simp
  exact ⟨hbase month, fun month2 => by rw [hbase month, hbase month2]⟩

/-- Witness for C10 at `year = some 0`, `month = some 7`. -/
theorem pdfdownload_year_falsy_witness :
    intTruthy (some 0) = false
    ∧ (pdfdownload_filtered_manifest (some 0) (some 7)
          [⟨"f1", "2020-03-01"⟩, ⟨"f2", "2021-07-01"⟩]
        = [⟨"f1", "2020-03-01"⟩, ⟨"f2", "2021-07-01"⟩]
      ∧ ∀ month2, pdfdownload_filtered_manifest (some 0) (some 7)
            [⟨"f1", "2020-03-01"⟩, ⟨"f2", "2021-07-01"⟩]
          = pdfdownload_filtered_manifest (some 0) month2
            [⟨"f1", "2020-03-01"⟩, ⟨"f2", "2021-07-01"⟩]) :=
  ⟨by decide,
   pdfdownload_year_falsy (some 0) (some 7)
     [⟨"f1", "2020-03-01"⟩, ⟨"f2", "2021-07-01"⟩] (by decide)⟩

/-! ### Claims about the Time-Range Selector -/

/-- C1: for month-valid endpoints with start index ≤ end index,
`year_month_iter` yields exactly `end - start` pairs; the `k`-th pair is
the floor-divmod decoding of `start + k`; every month is in `[1, 12]`;
and the pairs are strictly increasing in chronological (month-index)
order. -/
theorem year_month_iter_spec (from_year from_month until_year until_month : Int)
    (hfm : 1 ≤ from_month ∧ from_month ≤ 12)
    (hum : 1 ≤ until_month ∧ until_month ≤ 12)
    (hle : 12 * from_year + from_month - 1 ≤ 12 * until_year + until_month - 1) :
    (((year_month_iter from_year from_month until_year until_month).length : Int)
        = (12 * until_year + until_month - 1) - (12 * from_year + from_month - 1))
    ∧ (∀ k (hk : k < (year_month_iter from_year from_month until_year until_month).length),
        (year_month_iter from_year from_month until_year until_month).get ⟨k, hk⟩
          = ((12 * from_year + from_month - 1 + k).fdiv 12,
             (12 * from_year + from_month - 1 + k).fmod 12 + 1))
    ∧ (∀ p ∈ year_month_iter from_year from_month until_year until_month,
        1 ≤ p.2 ∧ p.2 ≤ 12)
    ∧ List.Pairwise
        (fun p q : Int × Int => 12 * p.1 + (p.2 - 1) < 12 * q.1 + (q.2 - 1))
        (year_month_iter from_year from_month until_year until_month) := by
  have hmodbounds : ∀ x : Int, 0 ≤ x.fmod 12 ∧ x.fmod 12 < 12 := by
    intro x
    constructor
    · rw [Int.fmod_eq_emod _ (by norm_num : (0:Int) ≤ 12)]
      exact Int.emod_nonneg _ (by norm_num)
    · exact Int.fmod_lt_of_pos x (by norm_num)
  constructor
  · simp only [year_month_iter, List.length_map, intRange_length]
    omega
  constructor
  · intro k hk
    simp only [year_month_iter, List.length_map] at hk
    simp only [year_month_iter, List.get_eq_getElem, List.getElem_map,
      intRange_getElem _ _ _ hk]
  constructor
  · intro p hp
    simp only [year_month_iter, List.mem_map] at hp
    obtain ⟨x, _, rfl⟩ := hp
    have := hmodbounds x
    constructor <;> simp <;> omega
  · simp only [year_month_iter, List.pairwise_map]
    refine (intRange_pairwise _ _).imp ?_
    intro x y hxy
    have hx := Int.fdiv_add_fmod x 12
    have hy := Int.fdiv_add_fmod y 12
    omega

/-- Witness for C1 at `year_month_iter(2020, 11, 2021, 2)`. -/
theorem year_month_iter_spec_witness :
    ((1 ≤ (11:Int) ∧ (11:Int) ≤ 12)
     ∧ (1 ≤ (2:Int) ∧ (2:Int) ≤ 12)
     ∧ 12 * (2020:Int) + 11 - 1 ≤ 12 * 2021 + 2 - 1)
    ∧ ((((year_month_iter 2020 11 2021 2).length : Int)
        = (12 * 2021 + 2 - 1) - (12 * 2020 + 11 - 1))
      ∧ (∀ k (hk : k < (year_month_iter 2020 11 2021 2).length),
          (year_month_iter 2020 11 2021 2).get ⟨k, hk⟩
            = ((12 * 2020 + 11 - 1 + (k : Int)).fdiv 12,
               (12 * 2020 + 11 - 1 + (k : Int)).fmod 12 + 1))
      ∧ (∀ p ∈ year_month_iter 2020 11 2021 2, 1 ≤ p.2 ∧ p.2 ≤ 12)
      ∧ List.Pairwise
          (fun p q : Int × Int => 12 * p.1 + (p.2 - 1) < 12 * q.1 + (q.2 - 1))
          (year_month_iter 2020 11 2021 2)) :=
  ⟨⟨⟨by decide, by decide⟩, ⟨by decide, by decide⟩, by decide⟩,
   year_month_iter_spec 2020 11 2021 2
     ⟨by decide, by decide⟩ ⟨by decide, by decide⟩ (by decide)⟩

/-- C9: when the until endpoint encodes to a month index ≤ the from
endpoint's index, `year_month_iter` is empty and no error occurs. -/
theorem year_month_iter_empty (from_year from_month until_year until_month : Int)
    (h : 12 * until_year + until_month - 1 ≤ 12 * from_year + from_month - 1) :
    year_month_iter from_year from_month until_year until_month = [] := by
  simp only [year_month_iter, intRange]
  have : ((12 * until_year + until_month - 1) - (12 * from_year + from_month - 1)).toNat = 0 := by
    omega
  rw [this]
  rfl

/-- Witness for C9 at `year_month_iter(2020, 1, 2020, 1)`. -/
theorem year_month_iter_empty_witness :
    (12 * (2020:Int) + 1 - 1 ≤ 12 * 2020 + 1 - 1)
    ∧ year_month_iter 2020 1 2020 1 = [] :=
  ⟨by decide, year_month_iter_empty 2020 1 2020 1 (by decide)⟩

/-! ### Output-file naming (`extract_refs_for_pdf`, lines 136-144) -/

/-- `os.path.basename` on a POSIX path: everything after the last
slash. -/
def os_path_basename (p : List Char) : List Char :=
  (p.reverse.takeWhile (fun c => c != '/')).reverse

/-- Worker for `str.replace`, structurally recursive on a fuel counter.
Each step consumes at least one character of `s`, so `s.length` fuel is
always enough. -/
def str_replace_aux : Nat → List Char → List Char → List Char → List Char
  | 0, s, _, _ => s
  | _ + 1, [], _, _ => []
  | fuel + 1, c :: cs, pat, rep =>
    if !pat.isEmpty && pat.isPrefixOf (c :: cs) then
      rep ++ str_replace_aux fuel ((c :: cs).drop pat.length) pat rep
    else
      c :: str_replace_aux fuel cs pat rep

/-- Python `s.replace(pat, rep)`: replace every non-overlapping
occurrence of `pat`, scanning left to right.  (Python's behaviour for an
empty `pat` — interleaving `rep` everywhere — never arises here; the
model leaves `s` unchanged in that case.) -/
def str_replace (s pat rep : List Char) : List Char :=
  str_replace_aux s.length s pat rep

/-- The pattern `".pdf"` replaced by `extract_refs_for_pdf`. -/
def pdfPat : List Char := ".pdf".toList

/-- The replacement `"-refs.json.gz"` used by `extract_refs_for_pdf`. -/
def refsRep : List Char := "-refs.json.gz".toList

/-- `os.path.join(a, b)` on POSIX paths for two components: `b` if it is
absolute; otherwise `a ++ b` when `a` is empty or ends with a slash;
otherwise `a ++ "/" ++ b`. -/
def os_path_join (a b : List Char) : List Char :=
  if b.head? = some '/' then b
  else if a = [] then b
  else if a.getLast? = some '/' then a ++ b
  else a ++ '/' :: b

/-- The output path computed by `extract_refs_for_pdf`
(`bin/bulkrefs.py` lines 138-141):
`os.path.join(output_dir, os.path.basename(p).replace(".pdf", "-refs.json.gz"))`. -/
def extract_refs_output_filename (output_dir pdf_filename : List Char) : List Char :=
  os_path_join output_dir (str_replace (os_path_basename pdf_filename) pdfPat refsRep)

/-- Formalisation of the specification's wording for the output name:
strip a final `".pdf"` extension from the base name to get the base
identifier, then append `"-refs.json.gz"`.  Used only to compare the
spec's description with the code's actual replace-all behaviour. -/
def spec_output_filename (output_dir pdf_filename : List Char) : List Char :=
  let base := os_path_basename pdf_filename
  let ident := if pdfPat.isSuffixOf base then base.take (base.length - pdfPat.length)
               else base
  os_path_join output_dir (ident ++ refsRep)

/-! ### Helper lemmas about the naming functions -/

theorem isPrefixOf_eq_true_iff (l₁ l₂ : List Char) :
    l₁.isPrefixOf l₂ = true ↔ l₁ <+: l₂ := by
  induction l₁ generalizing l₂ with
  | nil => simp [List.isPrefixOf]
  | cons a as ih =>
    cases l₂ with
    | nil => simp [List.isPrefixOf]
    | cons b bs =>
      simp only [List.isPrefixOf, Bool.and_eq_true, beq_iff_eq, ih,
        List.cons_prefix_cons]

theorem str_replace_aux_nil (fuel : Nat) (pat rep : List Char) :
    str_replace_aux fuel [] pat rep = [] := by
  cases fuel <;> rfl

theorem mem_str_replace_aux (fuel : Nat) (s pat rep : List Char) (c : Char)
    (h : c ∈ str_replace_aux fuel s pat rep) : c ∈ s ∨ c ∈ rep := by
  induction fuel generalizing s with
  | zero => exact Or.inl h
  | succ fuel ih =>
    cases s with
    | nil => simp [str_replace_aux] at h
    | cons d ds =>
      rw [str_replace_aux] at h
      by_cases hcond : (!pat.isEmpty && pat.isPrefixOf (d :: ds)) = true
      · rw [if_pos hcond] at h
        rcases List.mem_append.mp h with h' | h'
        · exact Or.inr h'
        · rcases ih _ h' with h'' | h''
          · exact Or.inl (List.mem_of_mem_drop h'')
          · exact Or.inr h''
      · rw [if_neg hcond] at h
        rcases List.mem_cons.mp h with h' | h'
        · exact Or.inl (h' ▸ List.mem_cons_self d ds)
        · rcases ih _ h' with h'' | h''
          · exact Or.inl (List.mem_cons_of_mem d h'')
          · exact Or.inr h''

theorem mem_str_replace (s pat rep : List Char) (c : Char)
    (h : c ∈ str_replace s pat rep) : c ∈ s ∨ c ∈ rep :=
  mem_str_replace_aux s.length s pat rep c h

theorem no_slash_basename (p : List Char) : '/' ∉ os_path_basename p := by
  intro h
  unfold os_path_basename at h
  rw [List.mem_reverse] at h
  have hpred := List.mem_takeWhile_imp h
  simp at hpred

theorem head_ne_slash_of_not_mem (x : List Char) (h : '/' ∉ x) :
    x.head? ≠ some '/' := by
  cases x with
  | nil => simp
  | cons c cs =>
    simp only [List.head?_cons, ne_eq, Option.some.injEq]
    intro hc
    subst hc
    exact h (List.mem_cons_self _ _)

theorem os_path_join_right_inj (a x y : List Char)
    (hx : x.head? ≠ some '/') (hy : y.head? ≠ some '/') :
    os_path_join a x = os_path_join a y ↔ x = y := by
  unfold os_path_join
  rw [if_neg hx, if_neg hy]
  by_cases ha : a = []
  · rw [if_pos ha, if_pos ha]
  · rw [if_neg ha, if_neg ha]
    by_cases hl : a.getLast? = some '/'
    · rw [if_pos hl, if_pos hl, List.append_right_inj]
    · rw [if_neg hl, if_neg hl, List.append_right_inj]
      exact ⟨fun h => by injection h, fun h => by rw [h]⟩

theorem transformed_head_ne_slash (p : List Char) :
    (str_replace (os_path_basename p) pdfPat refsRep).head? ≠ some '/' := by
  apply head_ne_slash_of_not_mem
  intro h
  rcases mem_str_replace _ _ _ _ h with h' | h'
  · exact no_slash_basename p h'
  · simp [refsRep] at h'

/-- C5 (amended): the output filename is determined by the transformed
base name alone; two enumerated documents receive the same output path
exactly when the `".pdf"`-replacement of their base names coincides — in
particular, documents with the same base name in different
subdirectories of the unpacked archive collide. -/
theorem output_filename_eq_iff (d p q : List Char) :
    extract_refs_output_filename d p = extract_refs_output_filename d q ↔
      str_replace (os_path_basename p) pdfPat refsRep
        = str_replace (os_path_basename q) pdfPat refsRep := by
  unfold extract_refs_output_filename
  exact os_path_join_right_inj d _ _ (transformed_head_ne_slash p)
    (transformed_head_ne_slash q)

/-- Counterexample to C5 as stated: the distinct paths
`pdfs/a/x.pdf` and `pdfs/b/x.pdf` (both of the `pdfs_dir/*/*.pdf` shape
enumerated by the glob) are mapped to the same output filename. -/
theorem output_filename_collision_cex :
    ("pdfs/a/x.pdf".toList ≠ "pdfs/b/x.pdf".toList)
    ∧ extract_refs_output_filename "out".toList "pdfs/a/x.pdf".toList
        = extract_refs_output_filename "out".toList "pdfs/b/x.pdf".toList
    ∧ extract_refs_output_filename "out".toList "pdfs/a/x.pdf".toList
        = "out/x-refs.json.gz".toList := by
  refine ⟨by decide, by decide, by decide⟩

theorem str_replace_aux_append_pat (pat rep : List Char) (hpat : pat ≠ []) :
    ∀ (b : List Char) (fuel : Nat), (b ++ pat).length ≤ fuel →
    (∀ i, i < b.length → pat.isPrefixOf ((b ++ pat).drop i) = false) →
    str_replace_aux fuel (b ++ pat) pat rep = b ++ rep := by
  intro b
  induction b with
  | nil =>
    intro fuel hfuel _
    obtain ⟨c, cs, rfl⟩ := List.exists_cons_of_ne_nil hpat
    simp only [List.nil_append, List.length_cons] at hfuel ⊢
    cases fuel with
    | zero => omega
    | succ f =>
      rw [str_replace_aux]
      have hcond : (!(c :: cs).isEmpty && (c :: cs).isPrefixOf (c :: cs)) = true := by
        simp only [List.isEmpty_cons, Bool.not_false, Bool.true_and]
        exact (isPrefixOf_eq_true_iff _ _).mpr (List.prefix_refl _)
      rw [if_pos hcond, List.drop_length, str_replace_aux_nil, List.append_nil]
  | cons c b ih =>
    intro fuel hfuel hno
    simp only [List.cons_append, List.length_cons] at hfuel ⊢
    cases fuel with
    | zero => omega
    | succ f =>
      rw [str_replace_aux]
      have hcond0 := hno 0 (by simp)
      simp only [List.drop_zero, List.cons_append] at hcond0
      have hcond : (!pat.isEmpty && pat.isPrefixOf (c :: (b ++ pat))) = false := by
        rw [hcond0, Bool.and_false]
      rw [if_neg (by rw [hcond]; exact Bool.false_ne_true)]
      rw [ih f (by simpa using Nat.lt_succ_iff.mp (Nat.lt_of_lt_of_le (Nat.lt_succ_of_le (Nat.le_refl _)) hfuel)) ?_]
      intro i hi
      have := hno (i + 1) (by simpa using Nat.succ_lt_succ hi)
      simpa using this

/-- C6 (amended): for a document whose base name is `b ++ ".pdf"` with no
occurrence of `".pdf"` starting inside `b`, the output filename is the
base identifier followed by `"-refs.json.gz"`, joined to the output
directory; and the output filename is a pure function of the base name
for every input. -/
theorem output_filename_single_pdf_spec (d p b : List Char)
    (hbase : os_path_basename p = b ++ pdfPat)
    (hno : ∀ i, i < b.length → pdfPat.isPrefixOf ((b ++ pdfPat).drop i) = false) :
    extract_refs_output_filename d p = os_path_join d (b ++ refsRep)
    ∧ ∀ q, os_path_basename q = os_path_basename p →
        extract_refs_output_filename d q = extract_refs_output_filename d p := by
  constructor
  · unfold extract_refs_output_filename str_replace
    rw [hbase]
    rw [str_replace_aux_append_pat pdfPat refsRep (by decide) b _ (Nat.le_refl _) hno]
  · intro q hq
    unfold extract_refs_output_filename
    rw [hq]

/-- Witness for C6 (amended) at the archive document
`pdfs/0704/0704.0001.pdf`. -/
theorem output_filename_single_pdf_spec_witness :
    (os_path_basename "pdfs/0704/0704.0001.pdf".toList = "0704.0001".toList ++ pdfPat)
    ∧ (∀ i, i < "0704.0001".toList.length →
        pdfPat.isPrefixOf (("0704.0001".toList ++ pdfPat).drop i) = false)
    ∧ (extract_refs_output_filename "out".toList "pdfs/0704/0704.0001.pdf".toList
          = os_path_join "out".toList ("0704.0001".toList ++ refsRep)
      ∧ ∀ q, os_path_basename q = os_path_basename "pdfs/0704/0704.0001.pdf".toList →
          extract_refs_output_filename "out".toList q
            = extract_refs_output_filename "out".toList "pdfs/0704/0704.0001.pdf".toList) :=
  ⟨by decide, by decide,
   output_filename_single_pdf_spec "out".toList "pdfs/0704/0704.0001.pdf".toList
     "0704.0001".toList (by decide) (by decide)⟩

/-- Counterexample to C6 as stated: for the document `d/a.pdf.pdf` the
code replaces every occurrence of `".pdf"` in the base name, producing
`out/a-refs.json.gz-refs.json.gz`, whereas replacing the document's
extension (base identifier `a.pdf` plus `-refs.json.gz`) would give
`out/a.pdf-refs.json.gz`. -/
theorem output_filename_extension_cex :
    extract_refs_output_filename "out".toList "d/a.pdf.pdf".toList
        = "out/a-refs.json.gz-refs.json.gz".toList
    ∧ spec_output_filename "out".toList "d/a.pdf.pdf".toList
        = "out/a.pdf-refs.json.gz".toList
    ∧ extract_refs_output_filename "out".toList "d/a.pdf.pdf".toList
        ≠ spec_output_filename "out".toList "d/a.pdf.pdf".toList := by
  refine ⟨by decide, by decide, by decide⟩

/-! ### Per-archive stage (`extract_refs_for_tarfile`, lines 102-133)

The per-archive stage is modelled as a state transformer over a small
filesystem state.  External effects — the S3 download, the tar
subprocess, and the outcome of each pooled `extract_refs_for_pdf`
task — are supplied through an `ArchiveEnv`. -/

/-- The result of one pooled extraction task for one pdf: the worker
finished and wrote its output, the task hit its timeout, or the worker
raised (e.g. `refextract` failed on a malformed pdf). -/
inductive TaskOutcome where
  | success
  | timeout
  | failure (msg : String)
deriving DecidableEq

/-- An exception escaping a step of the stage. -/
inductive Exc where
  | timeoutError
  | extractionError (msg : String)
  | fetchError (msg : String)
deriving DecidableEq

/-- The external behaviour one run of the stage observes. -/
structure ArchiveEnv where
  /-- `some m` when `s3_bulk_download.download_file` raises. -/
  fetchFailure : Option String
  /-- Exit status of the `tar -xvzf` subprocess.  Line 112 calls
  `subprocess.run` without `check=True` and discards the returned
  `CompletedProcess`, so no part of the stage reads this value. -/
  unpackExitCode : Int
  /-- The files matching `pdfs_dir/*/*.pdf` after the (possibly partial
  or empty) unpack. -/
  unpackedPdfs : List String
  /-- Outcome of the pooled extraction task for each pdf. -/
  taskOutcome : String → TaskOutcome

/-- Filesystem-and-log state threaded through the stage. -/
structure FS where
  /-- Files living inside the stage's scoped temporary directory. -/
  workspaceFiles : List String
  /-- Files in the persistent output directory. -/
  outputFiles : List String
  /-- Messages emitted through the module logger. -/
  log : List String
deriving DecidableEq

def timeoutWarning (pdf_filename : String) : String :=
  "Timeout for ref extraction " ++ pdf_filename

def isSuccess : TaskOutcome → Bool
  | .success => true
  | _ => false

def isTimeout : TaskOutcome → Bool
  | .timeout => true
  | _ => false

def notFailure : TaskOutcome → Bool
  | .failure _ => false
  | _ => true

/-- The pdfs whose extraction task succeeded (and therefore wrote an
output record before `pool.join()` returned). -/
def successes (env : ArchiveEnv) : List String :=
  env.unpackedPdfs.filter (fun p => isSuccess (env.taskOutcome p))

/-- The stage's output filename for one pdf, as a `String` wrapper
around `extract_refs_output_filename`. -/
def refsOutputName (output_dir pdf_filename : String) : String :=
  ⟨extract_refs_output_filename output_dir.toList pdf_filename.toList⟩

/-- The per-task timeout constant (`EXTRACT_REFS_TIMEOUT_SECONDS = 5 * 60`,
line 20). -/
def EXTRACT_REFS_TIMEOUT_SECONDS : Nat := 5 * 60

/-- The timeout passed to `pool.schedule` for each enumerated pdf
(line 121): the same fixed constant for every task. -/
def scheduledTimeouts (env : ArchiveEnv) : List Nat :=
  env.unpackedPdfs.map (fun _ => EXTRACT_REFS_TIMEOUT_SECONDS)

/-- The `future.result()` loop of lines 126-132: iterate the futures in
submission order; a `TimeoutError` is caught and logged as a warning;
any other exception from a task is re-raised by `future.result()` and
propagates, ending the loop.  Returns the warnings logged and the
escaping exception, if any. -/
def resultLoop (outcome : String → TaskOutcome) : List String → List String × Option Exc
  | [] => ([], none)
  | p :: ps =>
    match outcome p with
    | .success => resultLoop outcome ps
    | .timeout =>
      let r := resultLoop outcome ps
      (timeoutWarning p :: r.1, r.2)
    | .failure m => ([], some (.extractionError m))

/-- First non-timeout task failure in submission order, if any. -/
def firstFailure (outcome : String → TaskOutcome) : List String → Option String
  | [] => none
  | p :: ps =>
    match outcome p with
    | .failure m => some m
    | _ => firstFailure outcome ps

/-- Semantics of `with tempfile.TemporaryDirectory() as td:`: run the
body; whether it returns normally or with an exception, the temporary
directory tree is removed (the workspace reverts to its prior state)
before the exception, if any, continues to propagate. -/
def withTemporaryDirectory (body : FS → FS × Option Exc) (fs : FS) : FS × Option Exc :=
  let r := body fs
  ({ r.1 with workspaceFiles := fs.workspaceFiles }, r.2)

/-- Body of the `with` block of `extract_refs_for_tarfile`
(lines 108-132): download the archive into the workspace (an S3 error
propagates), run tar ignoring its exit status, glob the unpacked pdfs,
schedule every pdf on the process pool and join it — at which point each
successful worker has written its output record — then run the
`future.result()` collection loop. -/
def tarfileBody (env : ArchiveEnv) (output_dir : String) (fs : FS) : FS × Option Exc :=
  match env.fetchFailure with
  | some m => (fs, some (.fetchError m))
  | none =>
    let fs1 : FS :=
      { fs with workspaceFiles := "pdfs.tgz" :: env.unpackedPdfs ++ fs.workspaceFiles }
    let fs2 : FS :=
      { fs1 with outputFiles :=
          fs1.outputFiles ++ (successes env).map (refsOutputName output_dir) }
    let r := resultLoop env.taskOutcome env.unpackedPdfs
    ({ fs2 with log := fs2.log ++ r.1 }, r.2)

/-- `extract_refs_for_tarfile` (lines 102-133): log the start, run the
body inside the scoped temporary directory, and log completion only when
no exception escaped the body. -/
def extract_refs_for_tarfile (env : ArchiveEnv) (output_dir : String) (fs : FS) :
    FS × Option Exc :=
  let fs0 : FS := { fs with log := fs.log ++ ["Extracting refs for tarfile"] }
  let r := withTemporaryDirectory (tarfileBody env output_dir) fs0
  match r.2 with
  | some e => (r.1, some e)
  | none => ({ r.1 with log := r.1.log ++ ["Tarfile extraction complete"] }, none)

/-! ### Helper lemmas about the stage -/

theorem resultLoop_no_failure (outcome : String → TaskOutcome) (l : List String)
    (h : ∀ p ∈ l, notFailure (outcome p) = true) :
    resultLoop outcome l
      = ((l.filter (fun p => isTimeout (outcome p))).map timeoutWarning, none) := by
  induction l with
  | nil => rfl
  | cons p ps ih =>
    have hp := h p (List.mem_cons_self _ _)
    have hps : ∀ q ∈ ps, notFailure (outcome q) = true :=
      fun q hq => h q (List.mem_cons_of_mem _ hq)
    rw [resultLoop]
    cases ho : outcome p with
    | success => simp [List.filter_cons, ho, isTimeout, ih hps]
    | timeout => simp [List.filter_cons, ho, isTimeout, ih hps]
    | failure m => rw [ho] at hp; simp [notFailure] at hp

theorem resultLoop_failure (outcome : String → TaskOutcome) (l : List String)
    (m : String) (h : firstFailure outcome l = some m) :
    (resultLoop outcome l).2 = some (.extractionError m) := by
  induction l with
  | nil => simp [firstFailure] at h
  | cons p ps ih =>
    rw [resultLoop]
    rw [firstFailure] at h
    cases ho : outcome p with
    | success => rw [ho] at h; exact ih h
    | timeout => rw [ho] at h; simpa using ih h
    | failure m' => rw [ho] at h; simp at h; simp [h]

theorem filter_success_timeout_length (outcome : String → TaskOutcome)
    (l : List String) (h : ∀ p ∈ l, notFailure (outcome p) = true) :
    (l.filter (fun p => isSuccess (outcome p))).length
      + (l.filter (fun p => isTimeout (outcome p))).length = l.length := by
  induction l with
  | nil => rfl
  | cons p ps ih =>
    have hp := h p (List.mem_cons_self _ _)
    have hps : ∀ q ∈ ps, notFailure (outcome q) = true :=
      fun q hq => h q (List.mem_cons_of_mem _ hq)
    cases ho : outcome p with
    | success =>
      have ihe := ih hps
      simp [List.filter_cons, ho, isSuccess, isTimeout] at ihe ⊢
      omega
    | timeout =>
      have ihe := ih hps
      simp [List.filter_cons, ho, isSuccess, isTimeout] at ihe ⊢
      omega
    | failure m => rw [ho] at hp; simp [notFailure] at hp

/-! ### Concrete environments used in witnesses and counterexamples -/

/-- An empty filesystem state. -/
def fsEmpty : FS := { workspaceFiles := [], outputFiles := [], log := [] }

/-- An archive of three documents: two extractions succeed and one times
out. -/
def envTimeout : ArchiveEnv :=
  { fetchFailure := none
    unpackExitCode := 0
    unpackedPdfs := ["pdfs/a/x.pdf", "pdfs/b/y.pdf", "pdfs/c/z.pdf"]
    taskOutcome := fun p => if p = "pdfs/b/y.pdf" then .timeout else .success }

/-- An archive of two documents: the first extraction raises, the second
times out. -/
def envFailure : ArchiveEnv :=
  { fetchFailure := none
    unpackExitCode := 0
    unpackedPdfs := ["pdfs/a/x.pdf", "pdfs/b/y.pdf"]
    taskOutcome := fun p => if p = "pdfs/a/x.pdf" then .failure "boom" else .timeout }

/-- An archive whose tar subprocess exits with status 2 (a failed
unpack) after having produced one pdf, whose extraction succeeds. -/
def envBadUnpack : ArchiveEnv :=
  { fetchFailure := none
    unpackExitCode := 2
    unpackedPdfs := ["pdfs/a/x.pdf"]
    taskOutcome := fun _ => .success }

/-! ### Claims about the per-archive stage -/

/-- C4: when every enumerated document either succeeds or times out,
each task is scheduled with the same fixed 300-second timeout, the stage
raises nothing, exactly `N - K` output records are produced (the
successes), and each of the `K` timeouts is logged as a warning. -/
theorem tarfile_timeout_spec (env : ArchiveEnv) (output_dir : String) (fs : FS)
    (hfetch : env.fetchFailure = none)
    (hok : ∀ p ∈ env.unpackedPdfs, notFailure (env.taskOutcome p) = true) :
    EXTRACT_REFS_TIMEOUT_SECONDS = 300
    ∧ scheduledTimeouts env
        = List.replicate env.unpackedPdfs.length EXTRACT_REFS_TIMEOUT_SECONDS
    ∧ (extract_refs_for_tarfile env output_dir fs).2 = none
    ∧ (extract_refs_for_tarfile env output_dir fs).1.outputFiles
        = fs.outputFiles ++ (successes env).map (refsOutputName output_dir)
    ∧ (extract_refs_for_tarfile env output_dir fs).1.outputFiles.length
        = fs.outputFiles.length
          + (env.unpackedPdfs.length
             - (env.unpackedPdfs.filter (fun p => isTimeout (env.taskOutcome p))).length)
    ∧ (extract_refs_for_tarfile env output_dir fs).1.log
        = fs.log ++ ["Extracting refs for tarfile"]
          ++ (env.unpackedPdfs.filter
                (fun p => isTimeout (env.taskOutcome p))).map timeoutWarning
          ++ ["Tarfile extraction complete"] := by
  have hloop := resultLoop_no_failure env.taskOutcome env.unpackedPdfs hok
  have hcount := filter_success_timeout_length env.taskOutcome env.unpackedPdfs hok
  refine ⟨rfl, by simp [scheduledTimeouts, List.map_const], ?_, ?_, ?_, ?_⟩
  · simp [extract_refs_for_tarfile, withTemporaryDirectory, tarfileBody, hfetch, hloop]
  · simp [extract_refs_for_tarfile, withTemporaryDirectory, tarfileBody, hfetch, hloop]
  · simp only [extract_refs_for_tarfile, withTemporaryDirectory, tarfileBody, hfetch,
      hloop]
    simp only [List.length_append, List.length_map, successes]
    omega
  · simp [extract_refs_for_tarfile, withTemporaryDirectory, tarfileBody, hfetch, hloop]

/-- Witness for C4 on `envTimeout` (N = 3, K = 1). -/
theorem tarfile_timeout_spec_witness :
    (envTimeout.fetchFailure = none
     ∧ ∀ p ∈ envTimeout.unpackedPdfs, notFailure (envTimeout.taskOutcome p) = true)
    ∧ (EXTRACT_REFS_TIMEOUT_SECONDS = 300
      ∧ scheduledTimeouts envTimeout
          = List.replicate envTimeout.unpackedPdfs.length EXTRACT_REFS_TIMEOUT_SECONDS
      ∧ (extract_refs_for_tarfile envTimeout "out" fsEmpty).2 = none
      ∧ (extract_refs_for_tarfile envTimeout "out" fsEmpty).1.outputFiles
          = fsEmpty.outputFiles ++ (successes envTimeout).map (refsOutputName "out")
      ∧ (extract_refs_for_tarfile envTimeout "out" fsEmpty).1.outputFiles.length
          = fsEmpty.outputFiles.length
            + (envTimeout.unpackedPdfs.length
               - (envTimeout.unpackedPdfs.filter
                    (fun p => isTimeout (envTimeout.taskOutcome p))).length)
      ∧ (extract_refs_for_tarfile envTimeout "out" fsEmpty).1.log
          = fsEmpty.log ++ ["Extracting refs for tarfile"]
            ++ (envTimeout.unpackedPdfs.filter
                  (fun p => isTimeout (envTimeout.taskOutcome p))).map timeoutWarning
            ++ ["Tarfile extraction complete"]) :=
  ⟨⟨rfl, by decide⟩,
   tarfile_timeout_spec envTimeout "out" fsEmpty rfl (by decide)⟩

/-- Counterexample to C3 as stated: on `envFailure` the first document's
extraction error is not caught by the per-archive stage — the stage
propagates it, and the second document's timeout warning is never
logged (result collection stops at the failure). -/
theorem extraction_failure_not_caught_cex :
    (extract_refs_for_tarfile envFailure "out" fsEmpty).2
        = some (Exc.extractionError "boom")
    ∧ (extract_refs_for_tarfile envFailure "out" fsEmpty).1.log
        = ["Extracting refs for tarfile"] := by
  refine ⟨by decide, by decide⟩

/-- C3 (amended): only `TimeoutError` is caught at the per-archive
stage; a non-timeout extraction failure propagates out of
`extract_refs_for_tarfile` as the first such failure in submission
order.  The temporary workspace is still cleaned up and the outputs
already written by successful siblings persist, but the stage itself
does not catch or log the failure. -/
theorem extraction_failure_propagates (env : ArchiveEnv) (output_dir : String)
    (fs : FS) (m : String)
    (hfetch : env.fetchFailure = none)
    (hfail : firstFailure env.taskOutcome env.unpackedPdfs = some m) :
    (extract_refs_for_tarfile env output_dir fs).2 = some (Exc.extractionError m)
    ∧ (extract_refs_for_tarfile env output_dir fs).1.workspaceFiles = fs.workspaceFiles
    ∧ (extract_refs_for_tarfile env output_dir fs).1.outputFiles
        = fs.outputFiles ++ (successes env).map (refsOutputName output_dir) := by
  have hloop := resultLoop_failure env.taskOutcome env.unpackedPdfs m hfail
  refine ⟨?_, ?_, ?_⟩ <;>
    simp [extract_refs_for_tarfile, withTemporaryDirectory, tarfileBody, hfetch, hloop]

/-- Witness for C3 (amended) on `envFailure`. -/
theorem extraction_failure_propagates_witness :
    (envFailure.fetchFailure = none
     ∧ firstFailure envFailure.taskOutcome envFailure.unpackedPdfs = some "boom")
    ∧ ((extract_refs_for_tarfile envFailure "out" fsEmpty).2
          = some (Exc.extractionError "boom")
      ∧ (extract_refs_for_tarfile envFailure "out" fsEmpty).1.workspaceFiles
          = fsEmpty.workspaceFiles
      ∧ (extract_refs_for_tarfile envFailure "out" fsEmpty).1.outputFiles
          = fsEmpty.outputFiles ++ (successes envFailure).map (refsOutputName "out")) :=
  ⟨⟨rfl, by decide⟩,
   extraction_failure_propagates envFailure "out" fsEmpty "boom" rfl (by decide)⟩

/-- Counterexample to C7 as stated: on `envBadUnpack` the tar subprocess
fails with exit status 2, yet an output record is produced from the
partially unpacked archive, nothing is raised, the log holds no report
of the unpack failure, and the whole run is indistinguishable from one
where tar succeeded. -/
theorem unpack_failure_ignored_cex :
    (extract_refs_for_tarfile envBadUnpack "out" fsEmpty).1.outputFiles
        = ["out/x-refs.json.gz"]
    ∧ (extract_refs_for_tarfile envBadUnpack "out" fsEmpty).2 = none
    ∧ (extract_refs_for_tarfile envBadUnpack "out" fsEmpty).1.log
        = ["Extracting refs for tarfile", "Tarfile extraction complete"]
    ∧ extract_refs_for_tarfile envBadUnpack "out" fsEmpty
        = extract_refs_for_tarfile { envBadUnpack with unpackExitCode := 0 }
            "out" fsEmpty := by
  refine ⟨by decide, by decide, by decide, by decide⟩

/-- C7 (amended): the per-archive stage ignores the unpack exit status
entirely — its behaviour (outputs, logs, workspace, exception) is
identical for every exit code, so a failed unpack is neither reported
nor skipped; the stage simply processes whatever files the unpack left
behind. -/
theorem unpack_exit_code_ignored (env : ArchiveEnv) (output_dir : String) (fs : FS)
    (c₁ c₂ : Int) :
    extract_refs_for_tarfile { env with unpackExitCode := c₁ } output_dir fs
      = extract_refs_for_tarfile { env with unpackExitCode := c₂ } output_dir fs := rfl

/-- C8: on every exit path of the per-archive stage — success,
per-document extraction failure, timeout, or a failed fetch — the
temporary workspace is restored to its prior state (the downloaded
archive and unpacked documents are deleted), and the only files that
persist beyond the prior state are the output records written by
successful extractions. -/
theorem workspace_cleanup_spec (env : ArchiveEnv) (output_dir : String) (fs : FS) :
    (extract_refs_for_tarfile env output_dir fs).1.workspaceFiles = fs.workspaceFiles
    ∧ (extract_refs_for_tarfile env output_dir fs).1.outputFiles
        = fs.outputFiles ++ (match env.fetchFailure with
            | some _ => []
            | none => (successes env).map (refsOutputName output_dir)) := by
  cases hf : env.fetchFailure with
  | some m => simp [extract_refs_for_tarfile, withTemporaryDirectory, tarfileBody, hf]
  | none =>
    cases hr : (resultLoop env.taskOutcome env.unpackedPdfs).2 with
    | none =>
      simp [extract_refs_for_tarfile, withTemporaryDirectory, tarfileBody, hf, hr]
    | some e =>
      simp [extract_refs_for_tarfile, withTemporaryDirectory, tarfileBody, hf, hr]

end ArxivBulkRefs
